import Mathlib

/-!
Verification development for the SinusX curve-file codec
(`src/libs/qCC_io/SinusxFilter.cpp` of CloudCompare).

The reader (`SinusxFilter::loadFile`) and writer (`SinusxFilter::saveToFile`)
are shallowly embedded below.  The input stream is a list of lines (one
`QTextStream::readLine` result per element); reading past the end of the list
yields the empty string, exactly as a null `QString` behaves under `isEmpty`.

External collaborators of the single source file are modelled as follows:
* numeric coordinate values are modelled as integers (`Int`); the claims under
  study concern control flow, shift arithmetic and textual structure, all of
  which are exact in this regime;
* `HandleGlobalShift` (declared in `FileIOFilter.h`, not part of the source
  under study) is a parameter `gs : Vec3 → Option Vec3`, the "maybe compute a
  recentering shift from the first raw point" decision procedure of the spec;
* memory allocation (`ccPointCloud::reserve`) is a parameter
  `alloc : Nat → Bool` deciding whether a reservation of the given capacity
  succeeds; `ccPointCloud::resize` to the current size and
  `ccPolyline::addPointIndex` are modelled as succeeding (the spec's
  `finalize(handle) -> bool` succeeds absent allocation failure);
* each polyline additionally carries a ghost field `raw`: the parsed
  coordinates of its vertices before the global shift was added.  It is pure
  proof bookkeeping and is written exactly in step with `verts`.
-/

namespace SX

/-- A 3d vector with integer coordinates (model of `CCVector3d`). -/
structure Vec3 where
  x : Int
  y : Int
  z : Int
deriving DecidableEq

def Vec3.zero : Vec3 := ⟨0, 0, 0⟩

def Vec3.add (a b : Vec3) : Vec3 := ⟨a.x + b.x, a.y + b.y, a.z + b.z⟩

def Vec3.sub (a b : Vec3) : Vec3 := ⟨a.x - b.x, a.y - b.y, a.z - b.z⟩

/-- The subset of `CC_FILE_ERROR` relevant to this filter. -/
inductive CCFileError where
  | noError
  | badArgument
  | reading
  | writing
  | malformedFile
  | notEnoughMemory
  | noSave
  | noLoad
deriving DecidableEq

/-- The four curve types of the format (`enum CurveType`, minus `INVALID`,
which is represented by `none` at use sites). -/
inductive CurveType where
  | S
  | P
  | N
  | C
deriving DecidableEq

/-- Model of a `ccPolyline` (together with its `ccPointCloud` vertex child)
as far as this filter reads and writes it. -/
structure SxPoly where
  name : String
  verts : List Vec3
  raw : List Vec3
  capacity : Nat
  closed : Bool
  visible : Bool
  vertsEnabled : Bool
  is2D : Bool
  upDir : Option Int
  constAltitude : Option Int
  globalShift : Option Vec3

/-- Auxiliary to `splitWS`: walk the characters, collecting the current
token in reverse in the accumulator and flushing it at whitespace. -/
def splitWSGo : List Char → List Char → List String
  | [], acc => if acc = [] then [] else [String.mk acc.reverse]
  | c :: cs, acc =>
    if c.isWhitespace then
      (if acc = [] then [] else [String.mk acc.reverse]) ++ splitWSGo cs []
    else splitWSGo cs (c :: acc)

/-- Splitting a line at runs of whitespace, dropping empty parts
(`QString::split(QRegExp("\\s+"), QString::SkipEmptyParts)`). -/
def splitWS (s : String) : List String := splitWSGo s.toList []

/-- Auxiliary to `strStarts`: does the second character list lead the first? -/
def listStarts : List Char → List Char → Bool
  | _, [] => true
  | [], _ :: _ => false
  | c :: cs, p :: ps => c = p && listStarts cs ps

/-- Model of `QString::startsWith`. -/
def strStarts (s pat : String) : Bool := listStarts s.toList pat.toList

/-- Model of `QString::right(s.length() - n)`, i.e. dropping the first `n`
characters. -/
def strDrop (s : String) (n : Nat) : String := String.mk (s.toList.drop n)

/-- Digits of a character list read as a base-10 natural number;
`none` when the list is empty or holds a non-digit. -/
def digitsToNat (cs : List Char) : Option Nat :=
  match cs with
  | [] => none
  | _ => cs.foldlM (fun a c => if c.isDigit then some (a * 10 + (c.toNat - 48)) else none) 0

/-- Model of `QString::toInt` (C locale): optional sign followed by at least
one decimal digit. -/
def qtToInt (s : String) : Option Int :=
  match s.toList with
  | '+' :: cs => (digitsToNat cs).map (fun n => (n : Int))
  | '-' :: cs => (digitsToNat cs).map (fun n => -(n : Int))
  | cs => (digitsToNat cs).map (fun n => (n : Int))

/-- Model of `QString::toDouble` on the integer-valued numerals this
development uses (coordinates are modelled as integers, see the file
header; a fractional or exponent part is outside this model's domain). -/
def qtToDouble (s : String) : Option Int := qtToInt s

/-- A freshly constructed polyline/vertex-cloud pair
(`new ccPointCloud("vertices")`, `new ccPolyline(...)`,
`setEnabled(false)` on the vertices). -/
def newPoly : SxPoly :=
  { name := ""
    verts := []
    raw := []
    capacity := 0
    closed := false
    visible := true
    vertsEnabled := false
    is2D := false
    upDir := none
    constAltitude := none
    globalShift := none }

/-- The mutable state of `SinusxFilter::loadFile`'s reading loop.
`container` is the output `ccHObject`'s list of attached children. -/
structure LoadState where
  container : List SxPoly
  cur : Option SxPoly
  curveType : Option CurveType
  cpIndex : Nat
  result : CCFileError
  pshift : Vec3
  firstVertex : Bool

/-- Initial state of the loop (lines 164-172 of the source). -/
def initState : LoadState :=
  { container := []
    cur := none
    curveType := none
    cpIndex := 0
    result := CCFileError.noError
    pshift := Vec3.zero
    firstVertex := true }

/-- Closing the current block on a new `B` header (lines 187-203):
attach the polyline when its vertex cloud is non-empty (the `resize` and
`addPointIndex` collaborator calls succeed absent allocation failure),
delete it otherwise; in both cases clear the current-block slots. -/
def attachCurrent (s : LoadState) : LoadState :=
  match s.cur with
  | none => s
  | some p =>
    if p.verts.length ≠ 0 then { s with container := s.container ++ [p], cur := none }
    else { s with cur := none }

/-- Closing the last block at the end of the stream (lines 434-444); same
attachment rule, but the current-block slot is not cleared. -/
def finalizeLast (s : LoadState) : LoadState :=
  match s.cur with
  | none => s
  | some p =>
    if p.verts.length ≠ 0 then { s with container := s.container ++ [p] }
    else s

/-- Curve-type tag characters (`SHORTCUT`). -/
def charToCurve (c : Char) : Option CurveType :=
  if c = 'S' then some CurveType.S
  else if c = 'P' then some CurveType.P
  else if c = 'N' then some CurveType.N
  else if c = 'C' then some CurveType.C
  else none

/-- Tag parsing of a `B` block-header line (lines 204-241), after the
current block has been closed: extract the one-character type tag; a
malformed header or an unrecognized tag records a diagnostic and leaves no
block open. -/
def parseHeaderTag (s : LoadState) (line : String) : LoadState :=
  match splitWS line with
  | _ :: t :: _ =>
    if 1 < t.toList.length then { s with result := CCFileError.malformedFile }
    else
      match t.toList with
      | [c] =>
        match charToCurve c with
        | some ct => { s with curveType := some ct, cur := some newPoly, cpIndex := 0 }
        | none => { s with curveType := none, result := CCFileError.malformedFile }
      | _ => { s with result := CCFileError.malformedFile }
  | _ => { s with result := CCFileError.malformedFile }

/-- Processing of a `B` block-header line (lines 184-241): close the
current block, then parse the type tag. -/
def parseBlockHeader (s0 : LoadState) (line : String) : LoadState :=
  parseHeaderTag (attachCurrent s0) line

/-- The token-skipping loop of a Circle block's stage-1 descriptor
(lines 324-332): keep reading lines and counting their tokens until 16
tokens have been consumed or the just-read line is empty (which is how this
reader observes the end of the stream).  Returns the token count, the last
line read, and the unconsumed lines. -/
def skipCLoop : Nat → String → List String → Nat × String × List String
  | skipped, currentLine, [] =>
    if skipped < 16 ∧ currentLine ≠ "" then (skipped, "", [])
    else (skipped, currentLine, [])
  | skipped, currentLine, l :: rest =>
    if skipped < 16 ∧ currentLine ≠ "" then
      skipCLoop (skipped + (splitWS l).length) l rest
    else (skipped, currentLine, l :: rest)

/-- Effect of the `connected` flag (lines 270-276): a `0` hides the
polyline and shows its vertex cloud instead. -/
def stage0Poly (p : SxPoly) (conn : Int) : SxPoly :=
  if conn = 0 then { p with visible := false, vertsEnabled := true } else p

/-- The first `CP` descriptor line (lines 258-288): expects exactly
`CP connected closed` with two integer tokens. -/
def stage0 (s : LoadState) (p : SxPoly) (tokens : List String) : LoadState :=
  match tokens with
  | [_, t1, t2] =>
    match qtToInt t1, qtToInt t2 with
    | some conn, some cl =>
      { s with cur := some { stage0Poly p conn with closed := cl != 0 },
               cpIndex := s.cpIndex + 1 }
    | _, _ => { s with result := CCFileError.malformedFile }
  | _ => { s with result := CCFileError.malformedFile }

/-- The base-plane `CP` descriptor line (lines 345-372): expects exactly
`CP basePlane` with `basePlane` a token whose first character is `0`, `1`
or `2`.  On success the up direction is stored as metadata and the stage
advances; on failure a diagnostic is recorded and the stage is unchanged. -/
def stage2 (s : LoadState) (p : SxPoly) (tokens : List String) : LoadState :=
  match tokens with
  | [_, t] =>
    match t.toList with
    | '0' :: _ => { s with cur := some { p with upDir := some 2 }, cpIndex := s.cpIndex + 1 }
    | '1' :: _ => { s with cur := some { p with upDir := some 0 }, cpIndex := s.cpIndex + 1 }
    | '2' :: _ => { s with cur := some { p with upDir := some 1 }, cpIndex := s.cpIndex + 1 }
    | _ => { s with result := CCFileError.malformedFile }
  | _ => { s with result := CCFileError.malformedFile }

/-- The second `CP` descriptor line (lines 290-343), branching on the curve
type.  `S` advances the stage and falls through to the base-plane handling
of the same line; `P` consumes the line; `N` reads the constant altitude;
`C` skips 16 tokens across as many lines as needed (the `assert` there is a
debug-build no-op).  The returned Boolean records whether the last line read
by the skip loop was empty, which terminates the outer reading loop. -/
def stage1 (s : LoadState) (p : SxPoly) (tokens : List String) (line : String)
    (rest : List String) : LoadState × List String × Bool :=
  match s.curveType with
  | some CurveType.S => (stage2 { s with cpIndex := s.cpIndex + 1 } p tokens, rest, false)
  | some CurveType.P => ({ s with cpIndex := s.cpIndex + 1 }, rest, false)
  | some CurveType.N =>
    match tokens with
    | [_, t1] =>
      match qtToDouble t1 with
      | some z =>
        ({ s with cur := some { p with constAltitude := some z }, cpIndex := s.cpIndex + 1 },
          rest, false)
      | none => ({ s with result := CCFileError.malformedFile }, rest, false)
    | _ => ({ s with result := CCFileError.malformedFile }, rest, false)
  | some CurveType.C =>
    let r := skipCLoop (tokens.length - 1) line rest
    ({ s with cpIndex := s.cpIndex + 1 }, r.2.2, decide (r.2.1 = ""))
  | none => ({ s with cpIndex := s.cpIndex + 1 }, rest, false)

/-- Dispatch of a `CP` descriptor line on the per-block stage counter
(lines 252-377); stages beyond 2 are ignored. -/
def handleCP (s : LoadState) (p : SxPoly) (line : String) (rest : List String) :
    LoadState × List String × Bool :=
  match s.cpIndex with
  | 0 => (stage0 s p (splitWS line), rest, false)
  | 1 => stage1 s p (splitWS line) line rest
  | 2 => (stage2 s p (splitWS line), rest, false)
  | _ => (s, rest, false)

/-- Effect of a successful `reserve` (lines 398-404): when the cloud is
full, its capacity is enlarged by the chunk of 10. -/
def growPoly (p : SxPoly) : SxPoly :=
  if p.verts.length = p.capacity then { p with capacity := p.verts.length + 10 } else p

/-- `addPoint` (line 419): append the shifted point to the vertex cloud
(and its raw parsed coordinates to the ghost field). -/
def appendVert (s : LoadState) (p : SxPoly) (Pd : Vec3) : LoadState :=
  { s with cur := some { p with verts := p.verts ++ [Pd.add s.pshift],
                                raw := p.raw ++ [Pd] } }

/-- The first-vertex global-shift decision (lines 405-417) followed by
`addPoint`: on the very first parsed vertex of the load the decision
procedure may fix the load-wide shift, which is then stored on the open
polyline. -/
def vertexShiftStep (gs : Vec3 → Option Vec3) (s : LoadState) (p : SxPoly)
    (Pd : Vec3) : LoadState :=
  if s.firstVertex then
    match gs Pd with
    | some sh =>
      appendVert { s with firstVertex := false, pshift := sh }
        { p with globalShift := some sh } Pd
    | none => appendVert { s with firstVertex := false } p Pd
  else appendVert s p Pd

/-- A vertex line (lines 379-430): exactly four tokens, the first three
numeric.  The vertex cloud grows by chunks of 10; a failed reservation
deletes the in-flight polyline and aborts with the out-of-memory status
(the Boolean marks that abort). -/
def handleVertex (gs : Vec3 → Option Vec3) (alloc : Nat → Bool) (s : LoadState)
    (p : SxPoly) (line : String) : LoadState × Bool :=
  match splitWS line with
  | [t1, t2, t3, _] =>
    match qtToDouble t1, qtToDouble t2, qtToDouble t3 with
    | some x, some y, some z =>
      if p.verts.length = p.capacity ∧ alloc (p.verts.length + 10) = false then
        ({ s with result := CCFileError.notEnoughMemory, cur := none }, true)
      else (vertexShiftStep gs s (growPoly p) ⟨x, y, z⟩, false)
    | _, _, _ => ({ s with result := CCFileError.malformedFile }, false)
  | _ => ({ s with result := CCFileError.malformedFile }, false)

/-- Output of processing one line: the new state, the unconsumed lines, and
whether the loop aborts (out of memory) or exits (empty line read by the
Circle skip loop). -/
structure StepOut where
  state : LoadState
  rest : List String
  oom : Bool
  halt : Bool

/-- Processing of a single line of the stream, in the source's order:
comment lines, block headers, then — only with an open block — name lines,
descriptor lines, and vertex lines; an empty line changes nothing. -/
def processLine (gs : Vec3 → Option Vec3) (alloc : Nat → Bool) (s : LoadState)
    (line : String) (rest : List String) : StepOut :=
  if strStarts line "C " then ⟨s, rest, false, false⟩
  else if strStarts line "B" then ⟨parseBlockHeader s line, rest, false, false⟩
  else
    match s.cur with
    | none => ⟨s, rest, false, false⟩
    | some p =>
      if strStarts line "CN" then
        if 3 < line.toList.length then
          ⟨{ s with cur := some { p with name := strDrop line 3 } }, rest, false, false⟩
        else ⟨s, rest, false, false⟩
      else if strStarts line "CP" then
        let r := handleCP s p line rest
        ⟨r.1, r.2.1, false, r.2.2⟩
      else if line = "" then ⟨s, rest, false, false⟩
      else
        let r := handleVertex gs alloc s p line
        ⟨r.1, rest, r.2, false⟩

/-- The reading loop (lines 174-432 plus the block close at 434-444).
The loop guard `!currentLine.isEmpty()` is evaluated on the line just
processed, so the loop exits — and the last block is closed — as soon as a
read line is empty, be it a blank line of the file or the end of the
stream.  The fuel argument is `lines.length + 1` at the entry point, which
every path strictly exceeds since each iteration consumes at least one
line. -/
def loadLoop (gs : Vec3 → Option Vec3) (alloc : Nat → Bool) :
    Nat → LoadState → List String → LoadState
  | 0, s, _ => finalizeLast s
  | _ + 1, s, [] => finalizeLast s
  | fuel + 1, s, l :: rest =>
    if l = "" then finalizeLast s
    else
      let out := processLine gs alloc s l rest
      if out.oom then out.state
      else if out.halt then finalizeLast out.state
      else loadLoop gs alloc fuel out.state out.rest

/-- The full state left by `SinusxFilter::loadFile` on an opened stream. -/
def loadState (gs : Vec3 → Option Vec3) (alloc : Nat → Bool) (lines : List String) :
    LoadState :=
  loadLoop gs alloc (lines.length + 1) initState lines

/-- Observable result of `SinusxFilter::loadFile`: the returned status and
the polylines attached to the output container. -/
def loadFile (gs : Vec3 → Option Vec3) (alloc : Nat → Bool) (lines : List String) :
    CCFileError × List SxPoly :=
  ((loadState gs alloc lines).result, (loadState gs alloc lines).container)

/-! ### The writer (`SinusxFilter::saveToFile`) -/

/-- `MakeSinusxName` (lines 50-56): replace every space with an underscore. -/
def MakeSinusxName (name : String) : String :=
  String.mk (name.toList.map (fun c => if c = ' ' then '_' else c))

/-- Little-endian base-10 digits of a natural number, with fuel (empty for
zero fuel or zero value). -/
def natDigitsAux : Nat → Nat → List Nat
  | 0, _ => []
  | _ + 1, 0 => []
  | fuel + 1, n => (n % 10) :: natDigitsAux fuel (n / 10)

/-- Base-10 digits of a positive natural number, most significant first. -/
def natDigitsMSF (n : Nat) : List Nat := (natDigitsAux n n).reverse

def digitChar (d : Nat) : Char := Char.ofNat (48 + d)

/-- Modelled from Qt's documented behavior of
`QString::number(x, 'E', 12)` on the integer-valued doubles used here:
scientific notation with one leading digit, 12 fractional digits and a
sign-and-two-digit exponent.  (Rounding beyond 13 significant digits is
outside this model's domain.) -/
def qtNumberE (x : Int) : String :=
  if x = 0 then "0.000000000000E+00"
  else
    let sign := if x < 0 then "-" else ""
    match natDigitsMSF x.natAbs with
    | [] => "0.000000000000E+00"
    | d :: tl =>
      let frac := (tl ++ List.replicate 12 0).take 12
      let e := tl.length
      sign ++ String.mk [digitChar d] ++ "." ++ String.mk (frac.map digitChar) ++
        "E+" ++ (if e < 10 then "0" ++ toString e else toString e)

/-- Modelled from the spec: `toGlobal3d` converts a stored (local) point to
the curve's absolute frame by undoing the recentering shift the object
carries (no shift record means a zero shift). -/
def toGlobal (shift : Option Vec3) (v : Vec3) : Vec3 :=
  match shift with
  | some sh => v.sub sh
  | none => v

/-- One coordinate field of a vertex line (lines 135-141): a space, a `+`
when the stored coordinate is non-negative, then the global coordinate as
formatted by `QString::number(…, 'E', 12)`. -/
def coordField (plocal pglobal : Int) : String :=
  " " ++ (if 0 ≤ plocal then "+" else "") ++ qtNumberE pglobal

/-- A full vertex line (lines 130-143): three coordinate fields built from
the stored point `P` and its global image `Pg`, then the terminator. -/
def saveVertexLine (P Pg : Vec3) : String :=
  coordField P.x Pg.x ++ coordField P.y Pg.y ++ coordField P.z Pg.z ++ " A"

/-- The effective up direction used by the writer (lines 115-122). -/
def sxUpDirOf (p : SxPoly) : Int :=
  if p.is2D then
    match p.upDir with
    | some d => d
    | none => 2
  else 2

/-- Base-plane code emitted by the writer (line 128). -/
def basePlaneCode (upDir : Int) : Int :=
  if upDir = 2 then 0 else if upDir = 1 then 2 else 1

/-- The lines the writer emits for one polyline (lines 102-146): nothing
when it has fewer than two vertices, otherwise the block header, name line,
two descriptor lines and one line per vertex. -/
def saveBlockLines (p : SxPoly) : List String :=
  if p.verts.length < 2 then []
  else
    ["B S",
     "CN " ++ p.name,
     "CP 1 " ++ (if p.closed then "1" else "0"),
     "CP " ++ toString (basePlaneCode (sxUpDirOf p))]
    ++ p.verts.map (fun P => saveVertexLine P (toGlobal p.globalShift P))

/-- Observable result of `SinusxFilter::saveToFile` on an opened sink:
returned status and emitted lines (header comment first). -/
def saveToFile (profiles : List SxPoly) : CCFileError × List String :=
  let body := (profiles.map saveBlockLines).flatten
  let result :=
    if profiles.any (fun p => 2 ≤ p.verts.length) then CCFileError.noError
    else CCFileError.noSave
  (result, "C Generated by CloudCompare" :: body)

/-- The global coordinates the writer would emit for a polyline's vertices
(the values passed to the numeric formatter, line 133). -/
def writeBack (p : SxPoly) : List Vec3 :=
  p.verts.map (fun v => toGlobal p.globalShift v)

/-! ### Concrete oracles used by witnesses and counterexamples -/

/-- A global-shift decision that never recenters. -/
def gsNone : Vec3 → Option Vec3 := fun _ => none

/-- A global-shift decision that recenters any first point with
`x`-coordinate at least 4 by the fixed translation `(-4, 0, 0)`. -/
def gsBig : Vec3 → Option Vec3 :=
  fun v => if 4 ≤ v.x then some ⟨-4, 0, 0⟩ else none

/-- An allocator that always succeeds. -/
def allocOK : Nat → Bool := fun _ => true

/-- The polyline currently under construction, as a list. -/
def curList (s : LoadState) : List SxPoly :=
  match s.cur with
  | some p => [p]
  | none => []

/-- Every polyline the state holds: attached ones plus the open one. -/
def allPolys (s : LoadState) : List SxPoly := s.container ++ curList s

/-- A `CP` line that the stage-0 handler rejects: token count different
from three, or a non-integer `connected`/`closed` token. -/
def stage0BadB (line : String) : Bool :=
  match splitWS line with
  | [_, t1, t2] => (qtToInt t1).isNone || (qtToInt t2).isNone
  | _ => true

/-- Following the spec's words: a coordinate in fixed-point notation at 12
digits of precision (for the integer-valued coordinates of this
development: the integer part, a point, and twelve zero digits). -/
def fixedNotation12 (x : Int) : String :=
  toString x ++ "." ++ String.mk (List.replicate 12 '0')

/-- The reader-loop invariant the proofs below maintain. -/
structure Inv (s : LoadState) : Prop where
  firstClean : s.firstVertex = true →
    s.pshift = Vec3.zero ∧ s.container = [] ∧
      ∀ p, s.cur = some p → p.verts = [] ∧ p.raw = [] ∧ p.globalShift = none
  shifted : ∀ p, p ∈ allPolys s → p.verts = p.raw.map (fun v => v.add s.pshift)
  attachedNE : ∀ p, p ∈ s.container → p.verts ≠ []
  tailNoRec : ∀ p, p ∈ s.container.drop 1 → p.globalShift = none
  curRec : ∀ p, s.cur = some p → p.globalShift ≠ none → s.container = []
  recShift : ∀ p, p ∈ allPolys s → ∀ sh, p.globalShift = some sh → sh = s.pshift
  resultOk : s.result = CCFileError.noError ∨ s.result = CCFileError.malformedFile ∨
    s.result = CCFileError.notEnoughMemory

/-- Properties of the reader's final output: attached polylines are
non-empty, uniformly shifted, only the first may carry the shift record
(whose value is the load-wide shift), and the status is one of the three
the loop can produce. -/
structure FinalProps (cont : List SxPoly) (sh : Vec3) (res : CCFileError) : Prop where
  nonempty : ∀ p, p ∈ cont → p.verts ≠ []
  shifted : ∀ p, p ∈ cont → p.verts = p.raw.map (fun v => v.add sh)
  recShift : ∀ p, p ∈ cont → ∀ s0, p.globalShift = some s0 → s0 = sh
  tailNoRec : ∀ p, p ∈ cont.drop 1 → p.globalShift = none
  resultOk : res = CCFileError.noError ∨ res = CCFileError.malformedFile ∨
    res = CCFileError.notEnoughMemory

/-! ### Concrete fixtures for witnesses and counterexamples -/

/-- A two-curve input whose first vertex triggers recentering under `gsBig`. -/
def L7 : List String :=
  ["B S", "4 0 0 A", "B S", "5 0 0 A"]

/-- The polyline the reader produces from `["B S", "0 0 0 A"]`. -/
def polyOne : SxPoly :=
  { name := ""
    verts := [⟨0, 0, 0⟩]
    raw := [⟨0, 0, 0⟩]
    capacity := 10
    closed := false
    visible := true
    vertsEnabled := false
    is2D := false
    upDir := none
    constAltitude := none
    globalShift := none }

/-- The first polyline the reader produces from `L7` under `gsBig`. -/
def polyA7 : SxPoly :=
  { polyOne with
    raw := [⟨4, 0, 0⟩]
    globalShift := some ⟨-4, 0, 0⟩ }

/-- The second polyline the reader produces from `L7` under `gsBig`. -/
def polyB7 : SxPoly :=
  { polyOne with
    verts := [⟨1, 0, 0⟩]
    raw := [⟨5, 0, 0⟩] }

/-- A polyline whose name contains a space. -/
def pName : SxPoly :=
  { polyOne with name := "my curve", verts := [⟨0, 0, 0⟩, ⟨1, 1, 1⟩] }

/-- The state after processing the header line `B S` from the initial
state. -/
def sAfterBS : LoadState := (processLine gsNone allocOK initState "B S" []).state

/-- A mid-block state of a Circle block whose stage-0 line has been
consumed. -/
def sCircle : LoadState :=
  { initState with cur := some newPoly, curveType := some CurveType.C, cpIndex := 1 }

/-! ## Basic lemmas -/

lemma Vec3.add_sub_self (v sh : Vec3) : (v.add sh).sub sh = v := by
  cases v; cases sh; simp [Vec3.add, Vec3.sub]

lemma mem_allPolys_left {s : LoadState} {p : SxPoly} (h : p ∈ s.container) :
    p ∈ allPolys s := List.mem_append_left _ h

lemma mem_allPolys_cur {s : LoadState} {p : SxPoly} (h : s.cur = some p) :
    p ∈ allPolys s := by
  simp [allPolys, curList, h]

/-! ## Preservation of the reader invariant -/

lemma inv_initState : Inv initState := by
  refine ⟨fun _ => ⟨rfl, rfl, fun q hq => by simp [initState] at hq⟩, ?_, ?_, ?_, ?_, ?_,
    Or.inl rfl⟩
  · intro q hq; simp [allPolys, curList, initState] at hq
  · intro q hq; simp [initState] at hq
  · intro q hq; simp [initState] at hq
  · intro q hq; simp [initState] at hq
  · intro q hq; simp [allPolys, curList, initState] at hq

/-- Changing only the bookkeeping fields (curve type, stage counter) and
setting the result to a value the loop can produce preserves the
invariant. -/
lemma inv_admin {s : LoadState} (h : Inv s) (ct : Option CurveType) (n : Nat)
    (e : CCFileError)
    (he : e = s.result ∨ e = CCFileError.malformedFile ∨ e = CCFileError.notEnoughMemory) :
    Inv { s with curveType := ct, cpIndex := n, result := e } := by
  refine ⟨h.firstClean, h.shifted, h.attachedNE, h.tailNoRec, h.curRec, h.recShift, ?_⟩
  rcases he with he | he | he
  · rw [he]; exact h.resultOk
  · exact Or.inr (Or.inl he)
  · exact Or.inr (Or.inr he)

/-- Replacing the open polyline by one with the same vertices, ghost data
and shift record preserves the invariant, whatever the new stage index. -/
lemma inv_updateCur {s : LoadState} {p p2 : SxPoly} (h : Inv s) (hc : s.cur = some p)
    (hv : p2.verts = p.verts) (hr : p2.raw = p.raw) (hg : p2.globalShift = p.globalShift)
    (n : Nat) : Inv { s with cur := some p2, cpIndex := n } := by
  have hpmem : p ∈ allPolys s := mem_allPolys_cur hc
  refine ⟨?_, ?_, h.attachedNE, h.tailNoRec, ?_, ?_, h.resultOk⟩
  · intro hf
    obtain ⟨h1, h2, h3⟩ := h.firstClean hf
    refine ⟨h1, h2, ?_⟩
    intro q hq
    have hq2 : p2 = q := by simpa using hq
    obtain ⟨e1, e2, e3⟩ := h3 p hc
    subst hq2
    exact ⟨hv.trans e1, hr.trans e2, hg.trans e3⟩
  · intro q hq
    have hq2 : q ∈ s.container ∨ q = p2 := by
      simpa [allPolys, curList] using hq
    rcases hq2 with hq2 | rfl
    · exact h.shifted q (List.mem_append_left _ hq2)
    · rw [hv, hr]; exact h.shifted p hpmem
  · intro q hq hrec
    have hq2 : p2 = q := by simpa using hq
    subst hq2
    exact h.curRec p hc (by rw [← hg]; exact hrec)
  · intro q hq sh hsh
    have hq2 : q ∈ s.container ∨ q = p2 := by
      simpa [allPolys, curList] using hq
    rcases hq2 with hq2 | rfl
    · exact h.recShift q (List.mem_append_left _ hq2) sh hsh
    · exact h.recShift p hpmem sh (by rw [← hg]; exact hsh)

/-- The out-of-memory abort state (lines 402-403) keeps the invariant. -/
lemma inv_oomState {s : LoadState} (h : Inv s) :
    Inv { s with result := CCFileError.notEnoughMemory, cur := none } := by
  refine ⟨?_, ?_, h.attachedNE, h.tailNoRec, ?_, ?_, Or.inr (Or.inr rfl)⟩
  · intro hf
    obtain ⟨h1, h2, _⟩ := h.firstClean hf
    exact ⟨h1, h2, fun q hq => by simp at hq⟩
  · intro q hq
    have hq2 : q ∈ s.container := by simpa [allPolys, curList] using hq
    exact h.shifted q (List.mem_append_left _ hq2)
  · intro q hq; simp at hq
  · intro q hq sh hsh
    have hq2 : q ∈ s.container := by simpa [allPolys, curList] using hq
    exact h.recShift q (List.mem_append_left _ hq2) sh hsh

/-- Closing the current block preserves the invariant. -/
lemma inv_attachCurrent {s : LoadState} (h : Inv s) : Inv (attachCurrent s) := by
  rcases hc : s.cur with _ | p
  · simpa [attachCurrent, hc] using h
  · simp only [attachCurrent, hc]
    by_cases hlen : p.verts.length ≠ 0
    · rw [if_pos hlen]
      have hvne : p.verts ≠ [] := by
        intro he; exact hlen (by rw [he]; rfl)
      have hmemc : ∀ q : SxPoly, q ∈ s.container ++ [p] → q ∈ allPolys s := by
        intro q hq
        simpa [allPolys, curList, hc] using hq
      refine ⟨?_, ?_, ?_, ?_, ?_, ?_, h.resultOk⟩
      · intro hf
        obtain ⟨_, _, h3⟩ := h.firstClean hf
        exact absurd (h3 p hc).1 hvne
      · intro q hq
        have hq2 : q ∈ s.container ++ [p] := by simpa [allPolys, curList] using hq
        exact h.shifted q (hmemc q hq2)
      · intro q hq
        have hq2 : q ∈ s.container ∨ q = p := by simpa using hq
        rcases hq2 with hq2 | rfl
        · exact h.attachedNE q hq2
        · exact hvne
      · intro q hq
        rcases hcont : s.container with _ | ⟨c, cs⟩
        · rw [hcont] at hq; simp at hq
        · rw [hcont] at hq
          simp only [List.cons_append, List.drop_succ_cons, List.drop_zero] at hq
          rcases List.mem_append.mp hq with hq2 | hq2
          · exact h.tailNoRec q (by rw [hcont]; simpa using hq2)
          · have hq3 : q = p := by simpa using hq2
            subst hq3
            by_cases hrec : q.globalShift = none
            · exact hrec
            · have hcont2 := h.curRec q hc hrec
              rw [hcont] at hcont2; cases hcont2
      · intro q hq; simp at hq
      · intro q hq sh hsh
        have hq2 : q ∈ s.container ++ [p] := by simpa [allPolys, curList] using hq
        exact h.recShift q (hmemc q hq2) sh hsh
    · rw [if_neg hlen]
      refine ⟨?_, ?_, h.attachedNE, h.tailNoRec, ?_, ?_, h.resultOk⟩
      · intro hf
        obtain ⟨h1, h2, _⟩ := h.firstClean hf
        exact ⟨h1, h2, fun q hq => by simp at hq⟩
      · intro q hq
        have hq2 : q ∈ s.container := by simpa [allPolys, curList] using hq
        exact h.shifted q (List.mem_append_left _ hq2)
      · intro q hq; simp at hq
      · intro q hq sh hsh
        have hq2 : q ∈ s.container := by simpa [allPolys, curList] using hq
        exact h.recShift q (List.mem_append_left _ hq2) sh hsh

/-- Opening a fresh block preserves the invariant. -/
lemma inv_openBlock {s : LoadState} (h : Inv s) (ct : CurveType) :
    Inv { s with curveType := some ct, cur := some newPoly, cpIndex := 0 } := by
  refine ⟨?_, ?_, h.attachedNE, h.tailNoRec, ?_, ?_, h.resultOk⟩
  · intro hf
    obtain ⟨h1, h2, _⟩ := h.firstClean hf
    refine ⟨h1, h2, ?_⟩
    intro q hq
    have hq2 : newPoly = q := by simpa using hq
    subst hq2
    exact ⟨rfl, rfl, rfl⟩
  · intro q hq
    have hq2 : q ∈ s.container ∨ q = newPoly := by
      simpa [allPolys, curList] using hq
    rcases hq2 with hq2 | rfl
    · exact h.shifted q (List.mem_append_left _ hq2)
    · rfl
  · intro q hq hrec
    have hq2 : newPoly = q := by simpa using hq
    subst hq2
    exact absurd rfl hrec
  · intro q hq sh hsh
    have hq2 : q ∈ s.container ∨ q = newPoly := by
      simpa [allPolys, curList] using hq
    rcases hq2 with hq2 | rfl
    · exact h.recShift q (List.mem_append_left _ hq2) sh hsh
    · cases hsh

/-- Tag parsing preserves the invariant. -/
lemma inv_parseHeaderTag {s : LoadState} (h : Inv s) (line : String) :
    Inv (parseHeaderTag s line) := by
  unfold parseHeaderTag
  split
  · split
    · exact inv_admin h _ _ _ (Or.inr (Or.inl rfl))
    · split
      · split
        · exact inv_openBlock h _
        · exact inv_admin h _ _ _ (Or.inr (Or.inl rfl))
      · exact inv_admin h _ _ _ (Or.inr (Or.inl rfl))
  · exact inv_admin h _ _ _ (Or.inr (Or.inl rfl))

/-- Block-header processing preserves the invariant. -/
lemma inv_parseBlockHeader {s : LoadState} (h : Inv s) (line : String) :
    Inv (parseBlockHeader s line) :=
  inv_parseHeaderTag (inv_attachCurrent h) line

lemma stage0Poly_fields (p : SxPoly) (conn : Int) :
    (stage0Poly p conn).verts = p.verts ∧ (stage0Poly p conn).raw = p.raw ∧
      (stage0Poly p conn).globalShift = p.globalShift := by
  unfold stage0Poly; split <;> exact ⟨rfl, rfl, rfl⟩

lemma growPoly_fields (p : SxPoly) :
    (growPoly p).verts = p.verts ∧ (growPoly p).raw = p.raw ∧
      (growPoly p).globalShift = p.globalShift := by
  unfold growPoly; split <;> exact ⟨rfl, rfl, rfl⟩

lemma inv_stage0 {s : LoadState} {p : SxPoly} (h : Inv s) (hc : s.cur = some p)
    (tokens : List String) : Inv (stage0 s p tokens) := by
  unfold stage0
  split
  · split
    · refine inv_updateCur h hc ?_ ?_ ?_ _
      · exact (stage0Poly_fields p _).1
      · exact (stage0Poly_fields p _).2.1
      · exact (stage0Poly_fields p _).2.2
    all_goals exact inv_admin h _ _ _ (Or.inr (Or.inl rfl))
  · exact inv_admin h _ _ _ (Or.inr (Or.inl rfl))

lemma inv_stage2 {s : LoadState} {p : SxPoly} (h : Inv s) (hc : s.cur = some p)
    (tokens : List String) : Inv (stage2 s p tokens) := by
  unfold stage2
  split
  · split
    · refine inv_updateCur h hc ?_ ?_ ?_ _ <;> rfl
    · refine inv_updateCur h hc ?_ ?_ ?_ _ <;> rfl
    · refine inv_updateCur h hc ?_ ?_ ?_ _ <;> rfl
    · exact inv_admin h _ _ _ (Or.inr (Or.inl rfl))
  · exact inv_admin h _ _ _ (Or.inr (Or.inl rfl))

lemma inv_stage1 {s : LoadState} {p : SxPoly} (h : Inv s) (hc : s.cur = some p)
    (tokens : List String) (line : String) (rest : List String) :
    Inv (stage1 s p tokens line rest).1 := by
  unfold stage1
  split
  · exact inv_stage2 (inv_admin h s.curveType (s.cpIndex + 1) s.result (Or.inl rfl)) hc tokens
  · exact inv_admin h _ _ _ (Or.inl rfl)
  · split
    · split
      · refine inv_updateCur h hc ?_ ?_ ?_ _ <;> rfl
      · exact inv_admin h _ _ _ (Or.inr (Or.inl rfl))
    · exact inv_admin h _ _ _ (Or.inr (Or.inl rfl))
  · exact inv_admin h _ _ _ (Or.inl rfl)
  · exact inv_admin h _ _ _ (Or.inl rfl)

lemma inv_setFirstFalse {s : LoadState} (h : Inv s) : Inv { s with firstVertex := false } := by
  refine ⟨?_, h.shifted, h.attachedNE, h.tailNoRec, h.curRec, h.recShift, h.resultOk⟩
  intro hf; simp at hf

/-- Appending a vertex after the first-vertex decision has already been
made preserves the invariant. -/
lemma inv_appendVert {s : LoadState} {p q : SxPoly} (h : Inv s) (hc : s.cur = some p)
    (hfv : s.firstVertex = false) (hqv : q.verts = p.verts) (hqr : q.raw = p.raw)
    (hqg : q.globalShift = p.globalShift) (Pd : Vec3) : Inv (appendVert s q Pd) := by
  have hpmem : p ∈ allPolys s := mem_allPolys_cur hc
  unfold appendVert
  refine ⟨?_, ?_, h.attachedNE, h.tailNoRec, ?_, ?_, h.resultOk⟩
  · intro hf
    have hf2 : s.firstVertex = true := hf
    rw [hfv] at hf2
    exact Bool.noConfusion hf2
  · intro q2 hq2
    have hq3 : q2 ∈ s.container ∨
        q2 = { q with verts := q.verts ++ [Pd.add s.pshift], raw := q.raw ++ [Pd] } := by
      simpa [allPolys, curList] using hq2
    rcases hq3 with hq3 | rfl
    · exact h.shifted q2 (List.mem_append_left _ hq3)
    · simp only [List.map_append, List.map_cons, List.map_nil]
      rw [hqv, hqr, h.shifted p hpmem]
  · intro q2 hq2 hrec
    have hq3 : { q with verts := q.verts ++ [Pd.add s.pshift], raw := q.raw ++ [Pd] } = q2 := by
      simpa using hq2
    subst hq3
    refine h.curRec p hc ?_
    rw [← hqg]
    exact hrec
  · intro q2 hq2 sh hsh
    have hq3 : q2 ∈ s.container ∨
        q2 = { q with verts := q.verts ++ [Pd.add s.pshift], raw := q.raw ++ [Pd] } := by
      simpa [allPolys, curList] using hq2
    rcases hq3 with hq3 | rfl
    · exact h.recShift q2 (List.mem_append_left _ hq3) sh hsh
    · refine h.recShift p hpmem sh ?_
      rw [← hqg]
      exact hsh

/-- Appending the very first vertex of the load, with the shift just
granted and recorded on the open polyline, preserves the invariant. -/
lemma inv_appendVertFirst {s : LoadState} {p q : SxPoly} (h : Inv s) (hc : s.cur = some p)
    (hf : s.firstVertex = true) (hqv : q.verts = p.verts) (hqr : q.raw = p.raw)
    (sh : Vec3) (hqg : q.globalShift = some sh) (Pd : Vec3) :
    Inv (appendVert { s with firstVertex := false, pshift := sh } q Pd) := by
  obtain ⟨hps, hcont, hcur⟩ := h.firstClean hf
  obtain ⟨hpv, hpr, hpg⟩ := hcur p hc
  unfold appendVert
  refine ⟨?_, ?_, ?_, ?_, ?_, ?_, h.resultOk⟩
  · intro hff; simp at hff
  · intro q2 hq2
    have hq3 : q2 ∈ s.container ∨
        q2 = { q with verts := q.verts ++ [Pd.add sh], raw := q.raw ++ [Pd] } := by
      simpa [allPolys, curList] using hq2
    rcases hq3 with hq3 | rfl
    · rw [hcont] at hq3; cases hq3
    · simp only [List.map_append, List.map_cons, List.map_nil]
      rw [hqv, hqr, hpv, hpr]
      simp
  · intro q2 hq2
    have hq3 : q2 ∈ s.container := hq2
    rw [hcont] at hq3; cases hq3
  · intro q2 hq2
    have hq3 : q2 ∈ s.container.drop 1 := hq2
    rw [hcont] at hq3; cases hq3
  · intro q2 _ _
    exact hcont
  · intro q2 hq2 s0 hs0
    have hq3 : q2 ∈ s.container ∨
        q2 = { q with verts := q.verts ++ [Pd.add sh], raw := q.raw ++ [Pd] } := by
      simpa [allPolys, curList] using hq2
    rcases hq3 with hq3 | rfl
    · rw [hcont] at hq3; cases hq3
    · have hs1 : q.globalShift = some s0 := hs0
      rw [hqg] at hs1
      exact (Option.some.injEq _ _ ▸ hs1).symm

lemma bool_eq_false_of_not_true {b : Bool} (h : ¬b = true) : b = false := by
  cases b
  · rfl
  · exact absurd rfl h

/-- The first-vertex decision followed by the append preserves the
invariant. -/
lemma inv_vertexShiftStep {s : LoadState} {p : SxPoly} (h : Inv s) (hc : s.cur = some p)
    (gs : Vec3 → Option Vec3) (Pd : Vec3) : Inv (vertexShiftStep gs s (growPoly p) Pd) := by
  obtain ⟨gv, gr, gg⟩ := growPoly_fields p
  unfold vertexShiftStep
  by_cases hf : s.firstVertex = true
  · rw [if_pos hf]
    rcases hgs : gs Pd with _ | sh
    · simp only [hgs]
      exact inv_appendVert (inv_setFirstFalse h) hc rfl gv gr gg Pd
    · simp only [hgs]
      refine inv_appendVertFirst h hc hf ?_ ?_ sh ?_ Pd
      · exact gv
      · exact gr
      · rfl
  · rw [if_neg hf]
    exact inv_appendVert h hc (bool_eq_false_of_not_true hf) gv gr gg Pd

/-- Vertex-line processing preserves the invariant. -/
lemma inv_handleVertex {s : LoadState} {p : SxPoly} (h : Inv s) (hc : s.cur = some p)
    (gs : Vec3 → Option Vec3) (alloc : Nat → Bool) (line : String) :
    Inv (handleVertex gs alloc s p line).1 := by
  unfold handleVertex
  split
  · split
    · split
      · exact inv_oomState h
      · exact inv_vertexShiftStep h hc gs _
    all_goals exact inv_admin h _ _ _ (Or.inr (Or.inl rfl))
  · exact inv_admin h _ _ _ (Or.inr (Or.inl rfl))

/-- Descriptor-line processing preserves the invariant. -/
lemma inv_handleCP {s : LoadState} {p : SxPoly} (h : Inv s) (hc : s.cur = some p)
    (line : String) (rest : List String) : Inv (handleCP s p line rest).1 := by
  unfold handleCP
  split
  · exact inv_stage0 h hc _
  · exact inv_stage1 h hc _ _ _
  · exact inv_stage2 h hc _
  · exact h

/-- One full processed line preserves the invariant. -/
lemma inv_processLine {s : LoadState} (h : Inv s) (gs : Vec3 → Option Vec3)
    (alloc : Nat → Bool) (line : String) (rest : List String) :
    Inv (processLine gs alloc s line rest).state := by
  unfold processLine
  split
  · exact h
  · split
    · exact inv_parseBlockHeader h line
    · split
      · exact h
      · next p hp =>
          split
          · split
            · refine inv_updateCur h hp ?_ ?_ ?_ s.cpIndex <;> rfl
            · exact h
          · split
            · exact inv_handleCP h hp line rest
            · split
              · exact h
              · exact inv_handleVertex h hp gs alloc line

/-! ## Properties of the final state -/

lemma finalProps_of_inv {s : LoadState} (h : Inv s) :
    FinalProps s.container s.pshift s.result := by
  refine ⟨?_, ?_, ?_, h.tailNoRec, h.resultOk⟩
  · exact fun p hp => h.attachedNE p hp
  · exact fun p hp => h.shifted p (mem_allPolys_left hp)
  · exact fun p hp s0 hs0 => h.recShift p (mem_allPolys_left hp) s0 hs0

lemma finalizeLast_fields (s : LoadState) :
    (finalizeLast s).container = (attachCurrent s).container ∧
      (finalizeLast s).pshift = s.pshift ∧ (finalizeLast s).result = s.result := by
  rcases hc : s.cur with _ | p
  · simp [finalizeLast, attachCurrent, hc]
  · simp only [finalizeLast, attachCurrent, hc]
    split <;> exact ⟨rfl, rfl, rfl⟩

lemma attachCurrent_admin (s : LoadState) :
    (attachCurrent s).pshift = s.pshift ∧ (attachCurrent s).result = s.result := by
  rcases hc : s.cur with _ | p
  · simp [attachCurrent, hc]
  · simp only [attachCurrent, hc]
    split <;> exact ⟨rfl, rfl⟩

lemma finalProps_finalizeLast {s : LoadState} (h : Inv s) :
    FinalProps (finalizeLast s).container (finalizeLast s).pshift (finalizeLast s).result := by
  obtain ⟨hcc, hpp, hrr⟩ := finalizeLast_fields s
  rw [hcc, hpp, hrr]
  have h2 := finalProps_of_inv (inv_attachCurrent h)
  obtain ⟨ha, hb⟩ := attachCurrent_admin s
  rw [ha, hb] at h2
  exact h2

/-- The final-state properties hold after the whole reading loop. -/
lemma finalProps_loadLoop (gs : Vec3 → Option Vec3) (alloc : Nat → Bool) :
    ∀ (fuel : Nat) (s : LoadState) (lines : List String), Inv s →
      FinalProps (loadLoop gs alloc fuel s lines).container
        (loadLoop gs alloc fuel s lines).pshift (loadLoop gs alloc fuel s lines).result := by
  intro fuel
  induction fuel with
  | zero => intro s lines h; exact finalProps_finalizeLast h
  | succ n ih =>
    intro s lines h
    rcases lines with _ | ⟨l, rest⟩
    · exact finalProps_finalizeLast h
    · by_cases hl : l = ""
      · simp only [loadLoop, if_pos hl]
        exact finalProps_finalizeLast h
      · simp only [loadLoop, if_neg hl]
        have hout := inv_processLine h gs alloc l rest
        by_cases ho : (processLine gs alloc s l rest).oom = true
        · rw [if_pos ho]
          exact finalProps_of_inv hout
        · rw [if_neg ho]
          by_cases hh : (processLine gs alloc s l rest).halt = true
          · rw [if_pos hh]
            exact finalProps_finalizeLast hout
          · rw [if_neg hh]
            exact ih _ _ hout

/-! ## Container monotonicity -/

/-- When the skip loop stops, either 16 tokens have been consumed or the
current line is empty — which is exactly the reader's end-of-stream
condition (`readLine` yields the empty string at the end of the stream,
and the surrounding loop also stops on it). -/
lemma skipCLoop_post (k : Nat) (c : String) (ls : List String) :
    16 ≤ (skipCLoop k c ls).1 ∨ (skipCLoop k c ls).2.1 = "" := by
  induction ls generalizing k c with
  | nil =>
    unfold skipCLoop
    split
    · exact Or.inr rfl
    · next hcond =>
      rcases Nat.lt_or_ge k 16 with hk | hk
      · by_cases hc : c = ""
        · exact Or.inr hc
        · exact absurd ⟨hk, hc⟩ hcond
      · exact Or.inl hk
  | cons l rest ih =>
    unfold skipCLoop
    split
    · exact ih _ _
    · next hcond =>
      rcases Nat.lt_or_ge k 16 with hk | hk
      · by_cases hc : c = ""
        · exact Or.inr hc
        · exact absurd ⟨hk, hc⟩ hcond
      · exact Or.inl hk

/-- The skip loop only consumes lines, never manufactures them. -/
lemma skipCLoop_rest_le (k : Nat) (c : String) (ls : List String) :
    (skipCLoop k c ls).2.2.length ≤ ls.length := by
  induction ls generalizing k c with
  | nil =>
    unfold skipCLoop
    split <;> simp
  | cons l rest ih =>
    unfold skipCLoop
    split
    · exact Nat.le_trans (ih _ _) (Nat.le_succ _)
    · exact Nat.le_refl _

/-! ## Path lemmas for descriptor lines -/

/-- With an open block, a line that is neither a comment, a block header,
a name line nor blank, but carries the `CP` marker, goes to the descriptor
dispatcher. -/
lemma processLine_CP_eq (gs : Vec3 → Option Vec3) (alloc : Nat → Bool) {s : LoadState}
    {p : SxPoly} (line : String) (rest : List String) (hcur : s.cur = some p)
    (hC : strStarts line "C " = false) (hB : strStarts line "B" = false)
    (hCN : strStarts line "CN" = false) (hCP : strStarts line "CP" = true) :
    processLine gs alloc s line rest =
      ⟨(handleCP s p line rest).1, (handleCP s p line rest).2.1, false,
        (handleCP s p line rest).2.2⟩ := by
  unfold processLine
  rw [hC, hB, hcur, hCN, hCP]
  rfl

/-- A malformed stage-0 descriptor line only records the diagnostic: the
state is otherwise unchanged. -/
lemma stage0_of_bad {s : LoadState} {p : SxPoly} {line : String}
    (hbad : stage0BadB line = true) :
    stage0 s p (splitWS line) = { s with result := CCFileError.malformedFile } := by
  unfold stage0BadB at hbad
  unfold stage0
  split
  · next t0 t1 t2 heq =>
    rw [heq] at hbad
    split
    · next conn cl hc1 hc2 =>
      have hbad2 : ((qtToInt t1).isNone || (qtToInt t2).isNone) = true := hbad
      rw [hc1, hc2] at hbad2
      simp at hbad2
    · rfl
  · rfl

/-- With the stage counter at 0, the descriptor dispatcher runs stage 0. -/
lemma handleCP_stage0 {s : LoadState} (p : SxPoly) (line : String) (rest : List String)
    (hstage : s.cpIndex = 0) :
    handleCP s p line rest = (stage0 s p (splitWS line), rest, false) := by
  unfold handleCP
  rw [hstage]

/-- With the stage counter at 1 and a Circle block, the descriptor
dispatcher runs the 16-token skip and advances the stage. -/
lemma handleCP_stage1C {s : LoadState} (p : SxPoly) (line : String) (rest : List String)
    (hstage : s.cpIndex = 1) (hct : s.curveType = some CurveType.C) :
    handleCP s p line rest =
      ({ s with cpIndex := s.cpIndex + 1 },
        (skipCLoop ((splitWS line).length - 1) line rest).2.2,
        decide ((skipCLoop ((splitWS line).length - 1) line rest).2.1 = "")) := by
  obtain ⟨cont, cur, ct, cpi, res, ps, fv⟩ := s
  have h1 : cpi = 1 := hstage
  have h2 : ct = some CurveType.C := hct
  subst h1
  subst h2
  rfl

/-- Adding then undoing the same shift is the identity on a vertex list. -/
lemma map_sub_cancel (l : List Vec3) (sh : Vec3) :
    (l.map (fun v => v.add sh)).map (fun v => toGlobal (some sh) v) = l := by
  induction l with
  | nil => rfl
  | cons a t ih =>
    simp only [List.map_cons, ih]
    rw [show toGlobal (some sh) (a.add sh) = a from Vec3.add_sub_self a sh]

/-- With no shift record, write-back is the identity on the stored list. -/
lemma map_toGlobal_none (l : List Vec3) (f : Vec3 → Vec3) :
    l.map ((fun v => toGlobal none v) ∘ f) = l.map f := by
  induction l with
  | nil => rfl
  | cons a t ih =>
    simp only [List.map_cons, ih]
    rfl

/-! ## The claims -/

/-- Claim C1, counterexample: the reader attaches a block holding a single
vertex — the block-close test is `size != 0`, not `size >= 2` — so a block
with fewer than 2 vertices does contribute to the output, contrary to the
claim. -/
theorem c1_counterexample :
    (loadFile gsNone allocOK ["B S", "0 0 0 A"]).2 = [polyOne] ∧
      polyOne.verts.length = 1 :=
  ⟨rfl, rfl⟩

/-- Claim C1, amended: a parsed block's polyline is finalized and attached
to the output collection only if its accumulated vertex count at
block-close time is at least 1; a block whose accumulator is empty is
discarded and contributes nothing. -/
theorem c1_amended_nonzero (gs : Vec3 → Option Vec3) (alloc : Nat → Bool)
    (lines : List String) (p : SxPoly) (hp : p ∈ (loadFile gs alloc lines).2) :
    1 ≤ p.verts.length := by
  have h := (finalProps_loadLoop gs alloc (lines.length + 1) initState lines
    inv_initState).nonempty p hp
  exact Nat.one_le_iff_ne_zero.mpr (fun h0 => h (List.eq_nil_of_length_eq_zero h0))

/-- Witness for the amended C1 at a concrete one-vertex input. -/
theorem c1_amended_witness :
    polyOne ∈ (loadFile gsNone allocOK ["B S", "0 0 0 A"]).2 ∧ 1 ≤ polyOne.verts.length :=
  ⟨List.Mem.head _,
    c1_amended_nonzero gsNone allocOK ["B S", "0 0 0 A"] polyOne (List.Mem.head _)⟩

/-- Claim C2, counterexample: a blank line terminates the reading loop (the
loop guard `!currentLine.isEmpty()` treats it as the end of the stream), so
a block and vertex lines appearing after a blank line are NOT processed:
the same lines are processed when the blank line is absent. -/
theorem c2_counterexample :
    (loadFile gsNone allocOK ["B S", "", "B S", "0 0 0 A"]).2 = [] ∧
      (loadFile gsNone allocOK ["B S", "0 0 0 A"]).2 = [polyOne] ∧
      (loadFile gsNone allocOK ["B S", "", "B S", "0 0 0 A"]).1 =
        CCFileError.noError :=
  ⟨rfl, rfl, rfl⟩

/-- Claim C2, amended: a blank input line causes no state change and no
diagnostic, but it terminates reading: whatever lines follow it are never
examined, and the open block is closed exactly as at the end of the
stream. -/
theorem c2_amended_blank_terminates (gs : Vec3 → Option Vec3) (alloc : Nat → Bool)
    (fuel : Nat) (s : LoadState) (suf : List String) :
    loadLoop gs alloc (fuel + 1) s ("" :: suf) = finalizeLast s ∧
      (finalizeLast s).result = s.result := by
  refine ⟨rfl, ?_⟩
  obtain ⟨-, -, hr⟩ := finalizeLast_fields s
  exact hr

/-- Claim C3, code bug: the writer emits every coordinate through
`QString::number(…, 'E', 12)` — scientific notation — although the stream
was configured for fixed notation (lines 92-94) and the spec requires
fixed-point; the `+` prefix and the `A` terminator are as described. -/
theorem c3_bug_eval :
    (∀ P Pg : Vec3, saveVertexLine P Pg =
        coordField P.x Pg.x ++ coordField P.y Pg.y ++ coordField P.z Pg.z ++ " A") ∧
      coordField 1 1 = " +1.000000000000E+00" ∧
      coordField 1 1 ≠ " " ++ "+" ++ fixedNotation12 1 := by
  have h2 : coordField 1 1 = " +1.000000000000E+00" := rfl
  refine ⟨fun P Pg => rfl, h2, ?_⟩
  rw [h2]
  decide

/-- Claim C4, code bug: the writer emits the polyline's name verbatim on
the `CN` line; `MakeSinusxName`, which replaces spaces with underscores,
exists in the source (lines 50-56) but is never invoked, so a name with a
space is written with the space preserved. -/
theorem c4_bug_eval :
    (saveBlockLines pName)[1]? = some "CN my curve" ∧
      MakeSinusxName "my curve" = "my_curve" ∧
      "CN my curve" ≠ "CN " ++ MakeSinusxName "my curve" := by
  have h2 : MakeSinusxName "my curve" = "my_curve" := rfl
  refine ⟨rfl, h2, ?_⟩
  rw [h2]
  decide

/-- Claim C5, counterexample: after a `B S` header, the malformed stage-0
line `CP x y` records the diagnostic but leaves the header stage at 0 — it
does not advance to stage 1 (the `continue` skips `++cpIndex`). -/
theorem c5_counterexample :
    sAfterBS.cpIndex = 0 ∧ sAfterBS.cur = some newPoly ∧
      stage0BadB "CP x y" = true ∧
      (processLine gsNone allocOK sAfterBS "CP x y" []).state.cpIndex ≠ 1 ∧
      (processLine gsNone allocOK sAfterBS "CP x y" []).state.cpIndex = 0 ∧
      (processLine gsNone allocOK sAfterBS "CP x y" []).state.result =
        CCFileError.malformedFile := by
  have h4 : (processLine gsNone allocOK sAfterBS "CP x y" []).state.cpIndex = 0 := rfl
  refine ⟨rfl, rfl, rfl, ?_, h4, rfl⟩
  rw [h4]
  decide

/-- Claim C5, amended: a malformed stage-0 descriptor line records a
diagnostic, degrades the status to malformed and is otherwise skipped, but
the header stage does NOT advance: the next descriptor line is again
treated as the stage-0 line (the open polyline is unchanged). -/
theorem c5_amended_stage_not_advanced (gs : Vec3 → Option Vec3) (alloc : Nat → Bool)
    (s : LoadState) (p : SxPoly) (line : String) (rest : List String)
    (hcur : s.cur = some p) (hstage : s.cpIndex = 0)
    (hC : strStarts line "C " = false) (hB : strStarts line "B" = false)
    (hCN : strStarts line "CN" = false) (hCP : strStarts line "CP" = true)
    (hbad : stage0BadB line = true) :
    (processLine gs alloc s line rest).state.cpIndex = 0 ∧
      (processLine gs alloc s line rest).state.result = CCFileError.malformedFile ∧
      (processLine gs alloc s line rest).state.cur = some p ∧
      (processLine gs alloc s line rest).rest = rest := by
  rw [processLine_CP_eq gs alloc line rest hcur hC hB hCN hCP,
    handleCP_stage0 p line rest hstage, stage0_of_bad hbad]
  exact ⟨hstage, rfl, hcur, rfl⟩

/-- Witness for the amended C5 at the concrete malformed line `CP x y`. -/
theorem c5_amended_witness :
    (processLine gsNone allocOK sAfterBS "CP x y" []).state.cpIndex = 0 ∧
      (processLine gsNone allocOK sAfterBS "CP x y" []).state.result =
        CCFileError.malformedFile ∧
      (processLine gsNone allocOK sAfterBS "CP x y" []).state.cur = some newPoly ∧
      (processLine gsNone allocOK sAfterBS "CP x y" []).rest = [] :=
  c5_amended_stage_not_advanced gsNone allocOK sAfterBS newPoly "CP x y" []
    rfl rfl rfl rfl rfl rfl rfl

/-- Claim C6, counterexample: a stream that opens but contains no valid
block (here a single comment line) yields the success status with an empty
container — not a distinct nothing-to-load status. -/
theorem c6_counterexample :
    (loadFile gsNone allocOK ["C hello"]).1 = CCFileError.noError ∧
      (loadFile gsNone allocOK ["C hello"]).2 = [] :=
  ⟨rfl, rfl⟩

/-- Claim C6, amended: the reader never produces a nothing-to-load status:
its result is always no-error, malformed, or out-of-memory; in particular
success does not require that any block was finalized. -/
theorem c6_amended_no_noload (gs : Vec3 → Option Vec3) (alloc : Nat → Bool)
    (lines : List String) :
    ((loadFile gs alloc lines).1 = CCFileError.noError ∨
        (loadFile gs alloc lines).1 = CCFileError.malformedFile ∨
        (loadFile gs alloc lines).1 = CCFileError.notEnoughMemory) ∧
      (loadFile gs alloc lines).1 ≠ CCFileError.noLoad := by
  have h : (loadLoop gs alloc (lines.length + 1) initState lines).result =
        CCFileError.noError ∨
      (loadLoop gs alloc (lines.length + 1) initState lines).result =
        CCFileError.malformedFile ∨
      (loadLoop gs alloc (lines.length + 1) initState lines).result =
        CCFileError.notEnoughMemory :=
    (finalProps_loadLoop gs alloc (lines.length + 1) initState lines inv_initState).resultOk
  refine ⟨h, ?_⟩
  intro hh
  have hh2 : (loadLoop gs alloc (lines.length + 1) initState lines).result =
      CCFileError.noLoad := hh
  rcases h with h | h | h <;> rw [h] at hh2 <;> cases hh2

/-- Claim C7, counterexample: with recentering triggered by the first
vertex, write-back (`toGlobal3d`) reproduces the original absolute
coordinates of the first curve — which carries the shift record — but not
of the second curve of the same load, whose record is empty. -/
theorem c7_counterexample :
    (loadState gsBig allocOK L7).container = [polyA7, polyB7] ∧
      polyA7.globalShift = some ⟨-4, 0, 0⟩ ∧ polyB7.globalShift = none ∧
      writeBack polyA7 = polyA7.raw ∧
      writeBack polyB7 ≠ polyB7.raw :=
  ⟨rfl, rfl, rfl, rfl, by decide⟩

/-- Claim C7, amended: the shift is decided at most once per load and the
same shift is added to every stored vertex of every curve; write-back
reproduces the original coordinates exactly for a polyline carrying the
shift record, while a polyline without the record writes back its
originals translated by the shift. -/
theorem c7_amended_shift (gs : Vec3 → Option Vec3) (alloc : Nat → Bool)
    (lines : List String) (p : SxPoly) (hp : p ∈ (loadFile gs alloc lines).2) :
    p.verts = p.raw.map (fun v => v.add (loadState gs alloc lines).pshift) ∧
      (p.globalShift ≠ none → writeBack p = p.raw) ∧
      (p.globalShift = none →
        writeBack p = p.raw.map (fun v => v.add (loadState gs alloc lines).pshift)) := by
  have hfp := finalProps_loadLoop gs alloc (lines.length + 1) initState lines inv_initState
  have hsh : p.verts = p.raw.map (fun v => v.add (loadState gs alloc lines).pshift) :=
    hfp.shifted p hp
  refine ⟨hsh, ?_, ?_⟩
  · intro hrec
    rcases hgs : p.globalShift with _ | s0
    · exact absurd hgs hrec
    · have hs0 : s0 = (loadState gs alloc lines).pshift := hfp.recShift p hp s0 hgs
      unfold writeBack
      rw [hsh, hgs, hs0]
      exact map_sub_cancel p.raw (loadState gs alloc lines).pshift
  · intro hnone
    unfold writeBack
    rw [hsh, hnone]
    rw [List.map_map]
    exact map_toGlobal_none p.raw (fun v => v.add (loadState gs alloc lines).pshift)

/-- Witness for the amended C7 at the first curve of the concrete
recentered load. -/
theorem c7_amended_witness :
    polyA7.verts = polyA7.raw.map (fun v => v.add (loadState gsBig allocOK L7).pshift) ∧
      (polyA7.globalShift ≠ none → writeBack polyA7 = polyA7.raw) ∧
      (polyA7.globalShift = none →
        writeBack polyA7 =
          polyA7.raw.map (fun v => v.add (loadState gsBig allocOK L7).pshift)) :=
  c7_amended_shift gsBig allocOK L7 polyA7 (List.Mem.head _)

/-- Claim C8, confirmed: on a Circle block's stage-1 descriptor, the
token-skipping loop always stops — either 16 tokens have been consumed or
the current line has become empty, which is this reader's end-of-stream
condition (a blank file line is treated the same way by the entire loop) —
it consumes at most the remaining lines, never aborts, and the header
stage then advances past stage 1 to stage 2. -/
theorem c8_circle_skip (gs : Vec3 → Option Vec3) (alloc : Nat → Bool) (s : LoadState)
    (p : SxPoly) (line : String) (rest : List String)
    (hcur : s.cur = some p) (hct : s.curveType = some CurveType.C)
    (hstage : s.cpIndex = 1)
    (hC : strStarts line "C " = false) (hB : strStarts line "B" = false)
    (hCN : strStarts line "CN" = false) (hCP : strStarts line "CP" = true) :
    (processLine gs alloc s line rest).state.cpIndex = 2 ∧
      (processLine gs alloc s line rest).rest.length ≤ rest.length ∧
      (processLine gs alloc s line rest).oom = false ∧
      (16 ≤ (skipCLoop ((splitWS line).length - 1) line rest).1 ∨
        (skipCLoop ((splitWS line).length - 1) line rest).2.1 = "") := by
  rw [processLine_CP_eq gs alloc line rest hcur hC hB hCN hCP,
    handleCP_stage1C p line rest hstage hct]
  refine ⟨?_, skipCLoop_rest_le _ _ _, rfl, skipCLoop_post _ _ _⟩
  rw [hstage]

/-- Witness for C8 at a concrete Circle block whose descriptor carries
fewer than 16 trailing tokens and whose stream runs out. -/
theorem c8_circle_skip_witness :
    (processLine gsNone allocOK sCircle "CP 1 2 3" ["4 5", "6"]).state.cpIndex = 2 ∧
      (processLine gsNone allocOK sCircle "CP 1 2 3" ["4 5", "6"]).rest.length ≤
        (["4 5", "6"] : List String).length ∧
      (processLine gsNone allocOK sCircle "CP 1 2 3" ["4 5", "6"]).oom = false ∧
      (16 ≤ (skipCLoop ((splitWS "CP 1 2 3").length - 1) "CP 1 2 3" ["4 5", "6"]).1 ∨
        (skipCLoop ((splitWS "CP 1 2 3").length - 1) "CP 1 2 3" ["4 5", "6"]).2.1 = "") :=
  c8_circle_skip gsNone allocOK sCircle newPoly "CP 1 2 3" ["4 5", "6"]
    rfl rfl rfl rfl rfl rfl rfl

/-- Claim C10, confirmed: at most one polyline of a load's output carries
the global-shift record; every polyline after the first carries none, and
its stored vertices are translated by the same load-wide shift. -/
theorem c10_single_shift_record (gs : Vec3 → Option Vec3) (alloc : Nat → Bool)
    (lines : List String) :
    (loadFile gs alloc lines).2.countP (fun p => p.globalShift.isSome) ≤ 1 ∧
      ∀ p, p ∈ (loadFile gs alloc lines).2.drop 1 →
        p.globalShift = none ∧
          p.verts = p.raw.map (fun v => v.add (loadState gs alloc lines).pshift) := by
  have hfp := finalProps_loadLoop gs alloc (lines.length + 1) initState lines inv_initState
  constructor
  · rcases hl : (loadFile gs alloc lines).2 with _ | ⟨a, tl⟩
    · simp
    · have htl : ∀ p ∈ tl, ¬(fun p : SxPoly => p.globalShift.isSome) p = true := by
        intro p hp hrec
        have h0 : p.globalShift = none := by
          refine hfp.tailNoRec p ?_
          have h1 : (loadFile gs alloc lines).2.drop 1 = tl := by rw [hl]; rfl
          rw [← h1] at hp
          exact hp
        have hrec2 : p.globalShift.isSome = true := hrec
        rw [h0] at hrec2
        cases hrec2
      rw [List.countP_cons]
      have h2 : tl.countP (fun p => p.globalShift.isSome) = 0 :=
        List.countP_eq_zero.mpr htl
      rw [h2]
      split <;> simp
  · intro p hp
    have hmem : p ∈ (loadFile gs alloc lines).2 := List.mem_of_mem_drop hp
    exact ⟨hfp.tailNoRec p hp, hfp.shifted p hmem⟩

/-- Witness for C10 at the concrete two-curve recentered load: the second
polyline has no shift record and its vertices carry the load-wide shift. -/
theorem c10_single_shift_witness :
    (loadFile gsBig allocOK L7).2.countP (fun p => p.globalShift.isSome) ≤ 1 ∧
      (polyB7.globalShift = none ∧
        polyB7.verts = polyB7.raw.map (fun v => v.add (loadState gsBig allocOK L7).pshift)) :=
  ⟨(c10_single_shift_record gsBig allocOK L7).1,
    (c10_single_shift_record gsBig allocOK L7).2 polyB7 (List.Mem.head _)⟩

end SX
